import Mathlib

/-
  Verification of the tailnet key authority update builder
  (package tka, file builder.go) against its specification.

  The builder code itself is translated directly from builder.go.
  The surrounding components it calls (AUM, Key, State, Authority and
  their methods) are not part of the analysed sources, so they are
  modelled from the specification; each such definition carries a doc
  comment beginning with "Modelled from the spec:".
-/

namespace Tka

/-- Modelled from the spec: a key identifier (tkatype.KeyID), a byte string. -/
abbrev KeyID := List Nat

/-- Modelled from the spec: the content hash of an AUM (AUMHash), a byte string. -/
abbrev AUMHash := List Nat

/-- Modelled from the spec: the signing hash of an AUM (tkatype.AUMSigHash). -/
abbrev AUMSigHash := List Nat

/-- Modelled from the spec: a detached signature (tkatype.Signature), a byte string. -/
abbrev Signature := List Nat

/-- Modelled from the spec: a trusted principal with a stable identifier,
a non-negative vote weight, and string-to-string metadata. -/
structure Key where
  id : KeyID
  votes : Nat
  meta : List (String × String)
  deriving Repr, DecidableEq

/-- Modelled from the spec: Key.ID() returns the stable identifier of the key. -/
def Key.ID (k : Key) : KeyID := k.id

/-- Modelled from the spec: the kind of an AUM, one of AddKey, RemoveKey, UpdateKey. -/
inductive AUMKind where
  | addKey
  | removeKey
  | updateKey
  deriving Repr, DecidableEq

/-- Modelled from the spec: an Append-able Update Message.  Field PrevAUMHash is
absent only for a genesis message; Key is set for AddKey; KeyID for
RemoveKey and UpdateKey; Votes and Meta are the optional UpdateKey payloads;
Signatures is the ordered list of detached signatures. -/
structure AUM where
  messageKind : AUMKind
  prevAUMHash : Option AUMHash := none
  key : Option Key := none
  keyID : KeyID := []
  votes : Option Nat := none
  meta : Option (List (String × String)) := none
  signatures : List Signature := []
  deriving Repr, DecidableEq

/-- Canonical encoding of a natural number, helper for the modelled hashes. -/
def encNat (n : Nat) : List Nat := [n]

/-- Canonical encoding of a string, helper for the modelled hashes. -/
def encStr (s : String) : List Nat :=
  s.length :: (s.toList.map Char.toNat)

/-- Canonical encoding of a list, helper for the modelled hashes. -/
def encList (f : α → List Nat) (l : List α) : List Nat :=
  l.length :: (l.map f).flatten

/-- Canonical encoding of an optional value, helper for the modelled hashes. -/
def encOpt (f : α → List Nat) : Option α → List Nat
  | none => [0]
  | some x => 1 :: f x

/-- Canonical encoding of a key, helper for the modelled hashes. -/
def Key.enc (k : Key) : List Nat :=
  encList encNat k.id ++ encNat k.votes ++
    encList (fun p => encStr p.1 ++ encStr p.2) k.meta

/-- Numeric tag of an AUM kind, helper for the modelled hashes. -/
def AUMKind.tag : AUMKind → Nat
  | .addKey => 0
  | .removeKey => 1
  | .updateKey => 2

/-- Modelled from the spec: SigHash() is a deterministic hash over the content
of the AUM excluding the signatures field.  The spec leaves the byte layout
open, requiring only determinism, so a canonical field-order encoding is used. -/
def AUM.SigHash (u : AUM) : AUMSigHash :=
  encNat u.messageKind.tag ++
    encOpt (encList encNat) u.prevAUMHash ++
    encOpt Key.enc u.key ++
    encList encNat u.keyID ++
    encOpt encNat u.votes ++
    encOpt (encList (fun p => encStr p.1 ++ encStr p.2)) u.meta

/-- Modelled from the spec: Hash() is a deterministic content hash of the full
AUM, including signatures, used as the chain-link identity. -/
def AUM.Hash (u : AUM) : AUMHash :=
  u.SigHash ++ encList (encList encNat) u.signatures

/-- Modelled from the spec: Parent() returns the decoded prevHash and a flag
that is false exactly for a genesis message (no parent). -/
def AUM.Parent (u : AUM) : AUMHash × Bool :=
  match u.prevAUMHash with
  | none => ([], false)
  | some h => (h, true)

/-- Modelled from the spec: StaticValidate() performs field-presence shape
checks independent of any State: AddKey requires the key, RemoveKey and
UpdateKey require the keyID, and an UpdateKey carrying neither votes nor
meta is flagged.  Returns none on success, an error message on failure. -/
def AUM.StaticValidate (u : AUM) : Option String :=
  match u.messageKind with
  | .addKey => if u.key.isNone then some "AddKey AUM missing key" else none
  | .removeKey => if u.keyID = [] then some "RemoveKey AUM missing keyID" else none
  | .updateKey =>
      if u.keyID = [] then some "UpdateKey AUM missing keyID"
      else if u.votes.isNone ∧ u.meta.isNone then
        some "UpdateKey AUM carries neither votes nor meta"
      else none

/-- Modelled from the spec: the materialized State, a mapping from key
identifier to Key, represented as the list of trusted keys. -/
structure State where
  keys : List Key
  deriving Repr, DecidableEq

/-- Modelled from the spec: GetKey(id) returns the Key or fails NotFound. -/
def State.GetKey (s : State) (id : KeyID) : Except String Key :=
  match s.keys.find? (fun k => decide (k.ID = id)) with
  | some k => .ok k
  | none => .error "no such key"

/-- Modelled from the spec: applyVerifiedAUM dispatches on the kind.
AddKey fails AlreadyExists if the id is present, else inserts the key
unchanged; RemoveKey fails NotFound if absent, else removes it; UpdateKey
fails NotFound if absent, else replaces the vote weight when votes is
present and the metadata map when meta is present.  This function never
mutates its receiver; it returns a new State value. -/
def State.applyVerifiedAUM (s : State) (update : AUM) : Except String State :=
  match update.messageKind with
  | .addKey =>
      match update.key with
      | none => .error "AddKey AUM carries no key"
      | some k =>
          match s.GetKey k.ID with
          | .ok _ => .error "key already exists"
          | .error _ => .ok { s with keys := s.keys ++ [k] }
  | .removeKey =>
      match s.GetKey update.keyID with
      | .error e => .error e
      | .ok _ => .ok { s with keys := s.keys.filter (fun k => decide (¬ k.ID = update.keyID)) }
  | .updateKey =>
      match s.GetKey update.keyID with
      | .error e => .error e
      | .ok _ => .ok { s with keys := s.keys.map (fun k =>
          if k.ID = update.keyID then
            { k with votes := update.votes.getD k.votes, meta := update.meta.getD k.meta }
          else k) }

/-- Modelled from the spec: the Authority owns the canonical head (hash of
the last accepted AUM) and the State at that head. -/
structure Authority where
  head : AUMHash
  state : State

/-- Modelled from the spec: Head() returns the current committed hash. -/
def Authority.Head (a : Authority) : AUMHash := a.head

/-- Signer capability: signs an AUM signing hash, producing signatures or
failing.  Translated from the Signer interface in builder.go. -/
abbrev SignerFn := AUMSigHash → Except String (List Signature)

/-- UpdateBuilder, translated from builder.go: holds the Authority it was
derived from, the optional signer, the speculative state, the parent hash,
and the accumulated output AUM list. -/
structure UpdateBuilder where
  a : Authority
  signer : Option SignerFn
  state : State
  parent : AUMHash
  out : List AUM

/-- Rendering of a byte string in error messages, standing in for the %x
formatting used by builder.go. -/
def bytesStr (l : List Nat) : String :=
  String.intercalate "," (l.map toString)

/-- mkUpdate, translated from builder.go: set the prevHash of the update to
the parent, sign if a signer is configured, statically validate, apply to
the speculative state, and only then commit state, parent and output.
The Go method mutates the receiver and returns an error; this is modelled
by returning the new builder together with the optional error. -/
def mkUpdate (b : UpdateBuilder) (update : AUM) : UpdateBuilder × Option String :=
  let commit : AUM → UpdateBuilder × Option String := fun u =>
    match u.StaticValidate with
    | some e => (b, some ("generated update was invalid: " ++ e))
    | none =>
        match b.state.applyVerifiedAUM u with
        | .error e => (b, some ("update cannot be applied: " ++ e))
        | .ok st =>
            ({ b with state := st, parent := u.Hash, out := b.out ++ [u] }, none)
  let u1 : AUM := { update with prevAUMHash := some b.parent }
  match b.signer with
  | none => commit u1
  | some s =>
      match s u1.SigHash with
      | .error e => (b, some ("signing failed: " ++ e))
      | .ok sigs => commit { u1 with signatures := u1.signatures ++ sigs }

/-- AddKey, translated from builder.go: pre-check that the key does not
already exist, then delegate to mkUpdate with an AddKey AUM. -/
def AddKey (b : UpdateBuilder) (key : Key) : UpdateBuilder × Option String :=
  match b.state.GetKey key.ID with
  | .ok _ => (b, some ("cannot add key " ++ bytesStr key.ID ++ ": already exists"))
  | .error _ => mkUpdate b { messageKind := .addKey, key := some key }

/-- RemoveKey, translated from builder.go: pre-check that the key exists,
then delegate to mkUpdate with a RemoveKey AUM. -/
def RemoveKey (b : UpdateBuilder) (keyID : KeyID) : UpdateBuilder × Option String :=
  match b.state.GetKey keyID with
  | .error e => (b, some ("failed reading key " ++ bytesStr keyID ++ ": " ++ e))
  | .ok _ => mkUpdate b { messageKind := .removeKey, keyID := keyID }

/-- SetKeyVote, translated from builder.go: pre-check that the key exists,
then delegate to mkUpdate with an UpdateKey AUM carrying only votes. -/
def SetKeyVote (b : UpdateBuilder) (keyID : KeyID) (votes : Nat) :
    UpdateBuilder × Option String :=
  match b.state.GetKey keyID with
  | .error e => (b, some ("failed reading key " ++ bytesStr keyID ++ ": " ++ e))
  | .ok _ => mkUpdate b { messageKind := .updateKey, votes := some votes, keyID := keyID }

/-- SetKeyMeta, translated from builder.go: pre-check that the key exists,
then delegate to mkUpdate with an UpdateKey AUM carrying only meta. -/
def SetKeyMeta (b : UpdateBuilder) (keyID : KeyID) (meta : List (String × String)) :
    UpdateBuilder × Option String :=
  match b.state.GetKey keyID with
  | .error e => (b, some ("failed reading key " ++ bytesStr keyID ++ ": " ++ e))
  | .ok _ => mkUpdate b { messageKind := .updateKey, meta := some meta, keyID := keyID }

/-- Finalize, translated from builder.go: if any AUM was produced, compare
the first AUM declared parent against the current Head of the Authority;
on mismatch return nil and an error, otherwise return the output list. -/
def Finalize (b : UpdateBuilder) : List AUM × Option String :=
  match b.out with
  | [] => (b.out, none)
  | u :: _ =>
      if (u.Parent).1 ≠ b.a.Head then
        ([], some ("updates no longer apply to head: based on " ++
          bytesStr (u.Parent).1 ++ " but head is " ++ bytesStr b.a.Head))
      else (b.out, none)

/-- NewUpdater, translated from builder.go: returns a fresh builder holding
the Authority, the signer, the current head as parent, and the current
state, with an empty output list. -/
def NewUpdater (a : Authority) (signer : Option SignerFn) : UpdateBuilder :=
  { a := a, signer := signer, parent := a.Head, state := a.state, out := [] }

/-- Specification pipeline for mkUpdate, written from the five numbered steps
of the spec (set prevHash; sign when a Signer is configured, else skip
signing entirely; statically validate; apply to the speculative state;
commit), for comparison with the translated mkUpdate. -/
def mkUpdateSpec (b : UpdateBuilder) (update : AUM) : UpdateBuilder × Option String :=
  let step1 : AUM := { update with prevAUMHash := some b.parent }
  let step2 : Except String AUM :=
    match b.signer with
    | none => .ok step1
    | some s =>
        match s step1.SigHash with
        | .error e => .error ("signing failed: " ++ e)
        | .ok sigs => .ok { step1 with signatures := step1.signatures ++ sigs }
  match step2 with
  | .error e => (b, some e)
  | .ok u =>
      match u.StaticValidate with
      | some e => (b, some ("generated update was invalid: " ++ e))
      | none =>
          match b.state.applyVerifiedAUM u with
          | .error e => (b, some ("update cannot be applied: " ++ e))
          | .ok st =>
              ({ b with state := st, parent := u.Hash, out := b.out ++ [u] }, none)

/-- One public edit call on a builder, used to quantify over arbitrary edit
sequences. -/
inductive Op where
  | addKey (k : Key)
  | removeKey (id : KeyID)
  | setKeyVote (id : KeyID) (v : Nat)
  | setKeyMeta (id : KeyID) (m : List (String × String))

/-- The builder resulting from one edit call (the error, if any, is dropped;
a failed call leaves the builder as it was). -/
def applyOp (b : UpdateBuilder) : Op → UpdateBuilder
  | .addKey k => (AddKey b k).1
  | .removeKey id => (RemoveKey b id).1
  | .setKeyVote id v => (SetKeyVote b id v).1
  | .setKeyMeta id m => (SetKeyMeta b id m).1

/-- The builder resulting from a sequence of edit calls. -/
def applyOps (b : UpdateBuilder) (ops : List Op) : UpdateBuilder :=
  ops.foldl applyOp b

/-- chainOK p l holds when the AUM list l is a strict hash-linked chain whose
first element declares p as parent and each later element declares the hash
of its predecessor. -/
def chainOK (p : AUMHash) : List AUM → Prop
  | [] => True
  | u :: rest => (u.Parent).1 = p ∧ chainOK u.Hash rest

/-- Hash of the last AUM of the list, or the given hash when it is empty. -/
def lastHash (p : AUMHash) : List AUM → AUMHash
  | [] => p
  | u :: rest => lastHash u.Hash rest

/-- The state with the vote weight of the key with the given id replaced and
everything else untouched, used to state the SetKeyVote postcondition. -/
def setVotes (s : State) (id : KeyID) (v : Nat) : State :=
  { keys := s.keys.map (fun k => if k.ID = id then { k with votes := v } else k) }

/-- A concrete key, used to evaluate the theorems on concrete inputs. -/
def kA : Key := { id := [1], votes := 2, meta := [("o", "x")] }

/-- A second concrete key, used to evaluate the theorems on concrete inputs. -/
def kB : Key := { id := [2], votes := 1, meta := [] }

/-- A concrete state holding only kA. -/
def st0 : State := { keys := [kA] }

/-- A concrete authority at state st0. -/
def auth0 : Authority := { head := [9], state := st0 }

/-- A concrete builder freshly derived from auth0, without a signer. -/
def b0 : UpdateBuilder := NewUpdater auth0 none

/-- A structurally invalid AUM: an AddKey message carrying no key. -/
def uBad : AUM := { messageKind := AUMKind.addKey }

/-- A well-formed AddKey AUM for kB. -/
def uAdd : AUM := { messageKind := AUMKind.addKey, key := some kB }

/-- A signer that always fails. -/
def failSigner : SignerFn := fun _ => .error "refused"

/-- A concrete builder over st0 whose signer always fails. -/
def bSig : UpdateBuilder :=
  { a := auth0, signer := some failSigner, state := st0, parent := [9], out := [] }

/-- A concrete AUM whose declared parent disagrees with the head of auth0. -/
def uC3 : AUM :=
  { messageKind := AUMKind.removeKey, keyID := [1], prevAUMHash := some [0] }

/-- A concrete builder whose single produced AUM no longer applies to the
head of its authority. -/
def bC3 : UpdateBuilder :=
  { a := auth0, signer := none, state := st0, parent := [0], out := [uC3] }

/-- A concrete builder with no produced AUMs whose authority head has moved
away from the snapshot parent. -/
def bAdv : UpdateBuilder :=
  { a := { head := [7, 7], state := st0 }, signer := none, state := st0,
    parent := [9], out := [] }

/-- Case analysis of mkUpdate: either some step failed and the call returned
the builder untouched together with an error, or every step succeeded and
the call committed the signed, validated, applied AUM. -/
theorem mkUpdate_spec (b : UpdateBuilder) (u : AUM) :
    (∃ e, mkUpdate b u = (b, some e)) ∨
    (∃ u' st,
      u'.prevAUMHash = some b.parent ∧
      u'.messageKind = u.messageKind ∧
      u'.key = u.key ∧
      u'.keyID = u.keyID ∧
      u'.votes = u.votes ∧
      u'.meta = u.meta ∧
      (∃ sigs, u'.signatures = u.signatures ++ sigs) ∧
      (b.signer = none → u'.signatures = u.signatures) ∧
      u'.StaticValidate = none ∧
      b.state.applyVerifiedAUM u' = Except.ok st ∧
      mkUpdate b u =
        ({ b with state := st, parent := u'.Hash, out := b.out ++ [u'] }, none)) := by
  simp only [mkUpdate]
  cases hsig : b.signer with
  | none =>
      simp only []
      cases hv : AUM.StaticValidate { u with prevAUMHash := some b.parent } with
      | some e => exact Or.inl ⟨_, rfl⟩
      | none =>
          simp only []
          cases ha : State.applyVerifiedAUM b.state { u with prevAUMHash := some b.parent } with
          | error e => exact Or.inl ⟨_, rfl⟩
          | ok st =>
              refine Or.inr ⟨{ u with prevAUMHash := some b.parent }, st,
                rfl, rfl, rfl, rfl, rfl, rfl, ⟨[], by simp⟩, fun _ => rfl, hv, ha, rfl⟩
  | some s =>
      simp only []
      cases hres : s (AUM.SigHash { u with prevAUMHash := some b.parent }) with
      | error e => exact Or.inl ⟨_, rfl⟩
      | ok sigs =>
          simp only []
          cases hv : AUM.StaticValidate
              { u with prevAUMHash := some b.parent, signatures := u.signatures ++ sigs } with
          | some e => exact Or.inl ⟨_, rfl⟩
          | none =>
              simp only []
              cases ha : State.applyVerifiedAUM b.state
                  { u with prevAUMHash := some b.parent, signatures := u.signatures ++ sigs } with
              | error e => exact Or.inl ⟨_, rfl⟩
              | ok st =>
                  refine Or.inr ⟨{ u with prevAUMHash := some b.parent, signatures := u.signatures ++ sigs }, st, rfl, rfl, rfl, rfl, rfl, rfl, ⟨sigs, rfl⟩, ?_, hv, ha, rfl⟩
                  intro h
                  exact absurd h (by simp)

/-- Appending an AUM makes it the last hash of the chain. -/
theorem lastHash_append (p : AUMHash) (l : List AUM) (u : AUM) :
    lastHash p (l ++ [u]) = u.Hash := by
  induction l generalizing p with
  | nil => rfl
  | cons x xs ih => exact ih x.Hash

/-- Appending an AUM keeps the chain linked exactly when the new AUM declares
the hash of the current last element as its parent. -/
theorem chainOK_append (p : AUMHash) (l : List AUM) (u : AUM) :
    chainOK p (l ++ [u]) ↔ chainOK p l ∧ (u.Parent).1 = lastHash p l := by
  induction l generalizing p with
  | nil => simp [chainOK, lastHash]
  | cons x xs ih => simp [chainOK, lastHash, ih, and_assoc]

/-- mkUpdate preserves the chain invariant relating parent, output and the
snapshot hash. -/
theorem mkUpdate_inv (snap : AUMHash) (b : UpdateBuilder) (u : AUM)
    (hc : chainOK snap b.out) (hp : b.parent = lastHash snap b.out) :
    chainOK snap (mkUpdate b u).1.out ∧
      (mkUpdate b u).1.parent = lastHash snap (mkUpdate b u).1.out := by
  rcases mkUpdate_spec b u with ⟨e, he⟩ | ⟨u', st, hprev, hkind, hkey, hid, hvotes, hmeta, hsigs, hns, hval, happ, heq⟩
  · rw [he]
    exact ⟨hc, hp⟩
  · rw [heq]
    refine ⟨(chainOK_append snap b.out u').2 ⟨hc, ?_⟩, ?_⟩
    · simp [AUM.Parent, hprev, hp]
    · exact (lastHash_append snap b.out u').symm

/-- Every public edit either leaves the builder untouched or is a call to
mkUpdate on the same builder. -/
theorem applyOp_cases (b : UpdateBuilder) (op : Op) :
    applyOp b op = b ∨ ∃ u, applyOp b op = (mkUpdate b u).1 := by
  cases op with
  | addKey k =>
      simp only [applyOp, AddKey]
      cases b.state.GetKey k.ID with
      | ok k0 => exact Or.inl rfl
      | error e => exact Or.inr ⟨_, rfl⟩
  | removeKey id =>
      simp only [applyOp, RemoveKey]
      cases b.state.GetKey id with
      | ok k0 => exact Or.inr ⟨_, rfl⟩
      | error e => exact Or.inl rfl
  | setKeyVote id v =>
      simp only [applyOp, SetKeyVote]
      cases b.state.GetKey id with
      | ok k0 => exact Or.inr ⟨_, rfl⟩
      | error e => exact Or.inl rfl
  | setKeyMeta id m =>
      simp only [applyOp, SetKeyMeta]
      cases b.state.GetKey id with
      | ok k0 => exact Or.inr ⟨_, rfl⟩
      | error e => exact Or.inl rfl

/-- A sequence of edits preserves the chain invariant. -/
theorem applyOps_inv (snap : AUMHash) (b : UpdateBuilder) (ops : List Op)
    (hc : chainOK snap b.out) (hp : b.parent = lastHash snap b.out) :
    chainOK snap (applyOps b ops).out ∧
      (applyOps b ops).parent = lastHash snap (applyOps b ops).out := by
  induction ops generalizing b with
  | nil => exact ⟨hc, hp⟩
  | cons op ops ih =>
      have hstep : applyOps b (op :: ops) = applyOps (applyOp b op) ops := rfl
      rw [hstep]
      rcases applyOp_cases b op with h | ⟨u, h⟩
      · rw [h]
        exact ih b hc hp
      · rcases mkUpdate_inv snap b u hc hp with ⟨h1, h2⟩
        rw [h]
        exact ih _ h1 h2

/-- mkUpdate never changes the Authority referenced by the builder. -/
theorem mkUpdate_a (b : UpdateBuilder) (u : AUM) : (mkUpdate b u).1.a = b.a := by
  rcases mkUpdate_spec b u with ⟨e, he⟩ | ⟨u', st, hprev, hkind, hkey, hid, hvotes, hmeta, hsigs, hns, hval, happ, heq⟩
  · rw [he]
  · rw [heq]

/-- One edit never changes the Authority referenced by the builder. -/
theorem applyOp_a (b : UpdateBuilder) (op : Op) : (applyOp b op).a = b.a := by
  rcases applyOp_cases b op with h | ⟨u, h⟩
  · rw [h]
  · rw [h, mkUpdate_a]

/-- A sequence of edits never changes the Authority referenced by the builder. -/
theorem applyOps_a (b : UpdateBuilder) (ops : List Op) : (applyOps b ops).a = b.a := by
  induction ops generalizing b with
  | nil => rfl
  | cons op ops ih =>
      have hstep : applyOps b (op :: ops) = applyOps (applyOp b op) ops := rfl
      rw [hstep, ih (applyOp b op), applyOp_a]

/-- C1: whenever a call to mkUpdate fails (it returns an error because the
signer, StaticValidate or applyVerifiedAUM failed), the speculative state,
the parent hash and the accumulated output list of the builder are each
exactly their values before the call: no partial mutation occurs. -/
theorem c1_mkUpdate_failure_is_atomic (b : UpdateBuilder) (u : AUM)
    (h : (mkUpdate b u).2 ≠ none) :
    (mkUpdate b u).1.state = b.state ∧ (mkUpdate b u).1.parent = b.parent ∧
      (mkUpdate b u).1.out = b.out := by
  rcases mkUpdate_spec b u with ⟨e, he⟩ | ⟨u', st, hprev, hkind, hkey, hid, hvotes, hmeta, hsigs, hns, hval, happ, heq⟩
  · rw [he]
    exact ⟨rfl, rfl, rfl⟩
  · rw [heq] at h
    simp at h

/-- Witness for C1: a structurally invalid AddKey AUM makes mkUpdate fail
and leaves the concrete builder b0 untouched. -/
theorem c1_witness :
    (mkUpdate b0 uBad).2 ≠ none ∧
      ((mkUpdate b0 uBad).1.state = b0.state ∧ (mkUpdate b0 uBad).1.parent = b0.parent ∧
        (mkUpdate b0 uBad).1.out = b0.out) :=
  ⟨by decide, c1_mkUpdate_failure_is_atomic b0 uBad (by decide)⟩

/-- C2: a successful call to mkUpdate commits exactly the candidate AUM with
its prevHash set to the builder parent (and the signatures produced by the
signer appended): the builder state becomes the State returned by
applyVerifiedAUM, the parent becomes the Hash of the candidate, and the
candidate is appended to the output list. -/
theorem c2_mkUpdate_success_commits (b : UpdateBuilder) (u : AUM)
    (h : (mkUpdate b u).2 = none) :
    ∃ u' st,
      u'.prevAUMHash = some b.parent ∧
      u'.messageKind = u.messageKind ∧ u'.key = u.key ∧ u'.keyID = u.keyID ∧
      u'.votes = u.votes ∧ u'.meta = u.meta ∧
      (∃ sigs, u'.signatures = u.signatures ++ sigs) ∧
      u'.StaticValidate = none ∧
      b.state.applyVerifiedAUM u' = Except.ok st ∧
      (mkUpdate b u).1.state = st ∧
      (mkUpdate b u).1.parent = u'.Hash ∧
      (mkUpdate b u).1.out = b.out ++ [u'] := by
  rcases mkUpdate_spec b u with ⟨e, he⟩ | ⟨u', st, hprev, hkind, hkey, hid, hvotes, hmeta, hsigs, hns, hval, happ, heq⟩
  · rw [he] at h
    simp at h
  · exact ⟨u', st, hprev, hkind, hkey, hid, hvotes, hmeta, hsigs, hval, happ,
      by rw [heq], by rw [heq], by rw [heq]⟩

/-- Witness for C2: adding the fresh key kB to the concrete builder b0
succeeds and commits the AUM. -/
theorem c2_witness :
    (mkUpdate b0 uAdd).2 = none ∧
      (∃ u' st,
        u'.prevAUMHash = some b0.parent ∧
        u'.messageKind = uAdd.messageKind ∧ u'.key = uAdd.key ∧ u'.keyID = uAdd.keyID ∧
        u'.votes = uAdd.votes ∧ u'.meta = uAdd.meta ∧
        (∃ sigs, u'.signatures = uAdd.signatures ++ sigs) ∧
        u'.StaticValidate = none ∧
        b0.state.applyVerifiedAUM u' = Except.ok st ∧
        (mkUpdate b0 uAdd).1.state = st ∧
        (mkUpdate b0 uAdd).1.parent = u'.Hash ∧
        (mkUpdate b0 uAdd).1.out = b0.out ++ [u']) :=
  ⟨by decide, c2_mkUpdate_success_commits b0 uAdd (by decide)⟩

/-- C3: for a session that produced at least one AUM, Finalize compares the
declared parent of the first AUM with the current Head of the Authority;
on mismatch it returns the empty list and an error, on match it returns
the full accumulated sequence and no error. -/
theorem c3_finalize_checks_current_head (b : UpdateBuilder) (u : AUM) (rest : List AUM)
    (h : b.out = u :: rest) :
    ((u.Parent).1 ≠ b.a.Head → (Finalize b).1 = [] ∧ (Finalize b).2 ≠ none) ∧
    ((u.Parent).1 = b.a.Head → Finalize b = (b.out, none)) := by
  unfold Finalize
  rw [h]
  by_cases hne : (u.Parent).1 = b.a.Head
  · simp [hne]
  · simp [hne]

/-- Witness for C3: the concrete builder bC3 produced one AUM whose declared
parent disagrees with the current head, so Finalize returns no AUMs and
an error. -/
theorem c3_witness : (Finalize bC3).1 = [] ∧ (Finalize bC3).2 ≠ none :=
  (c3_finalize_checks_current_head bC3 uC3 [] rfl).1 (by decide)

/-- C7: NewUpdater snapshots the current head as parent and the current state
as speculative state, and starts with an empty output list. -/
theorem c7_newUpdater_snapshot (a : Authority) (signer : Option SignerFn) :
    (NewUpdater a signer).parent = a.Head ∧ (NewUpdater a signer).state = a.state ∧
      (NewUpdater a signer).out = [] :=
  ⟨rfl, rfl, rfl⟩

/-- C10: Finalize on a session that produced no AUMs returns the empty list
and no error, independently of where the head of the Authority now is. -/
theorem c10_finalize_empty_session (b : UpdateBuilder) (h : b.out = []) :
    Finalize b = ([], none) := by
  unfold Finalize
  rw [h]

/-- Witness for C10: the concrete builder bAdv produced no AUMs and its
authority head moved away from the snapshot, yet Finalize reports no
conflict. -/
theorem c10_witness :
    bAdv.out = [] ∧ bAdv.a.Head ≠ bAdv.parent ∧ Finalize bAdv = ([], none) :=
  ⟨rfl, by decide, c10_finalize_empty_session bAdv rfl⟩

/-- C4: any sequence of edit calls on a builder freshly derived from an
Authority yields a strict hash-linked chain: the first produced AUM
declares the snapshotted head as parent, every later AUM declares the
hash of its predecessor, and the builder parent always equals the hash
of the last produced AUM (or the snapshot head when none was produced). -/
theorem c4_session_chain_integrity (a : Authority) (signer : Option SignerFn) (ops : List Op) :
    chainOK a.Head (applyOps (NewUpdater a signer) ops).out ∧
      (applyOps (NewUpdater a signer) ops).parent =
        lastHash a.Head (applyOps (NewUpdater a signer) ops).out :=
  applyOps_inv a.Head (NewUpdater a signer) ops trivial rfl

/-- C5: every public edit operation pre-checks existence via GetKey on the
speculative state before constructing any AUM: AddKey fails with an
already-exists error on a present id, RemoveKey, SetKeyVote and SetKeyMeta
fail with a not-found error on an absent id (each leaving the builder
unchanged and producing no AUM), and exactly when the pre-check passes the
operation delegates to mkUpdate. -/
theorem c5_edit_operations_precheck (b : UpdateBuilder) (k : Key) (id : KeyID)
    (v : Nat) (m : List (String × String)) :
    (∀ k0, b.state.GetKey k.ID = Except.ok k0 →
      AddKey b k = (b, some ("cannot add key " ++ bytesStr k.ID ++ ": already exists"))) ∧
    (∀ e, b.state.GetKey k.ID = Except.error e →
      AddKey b k = mkUpdate b { messageKind := AUMKind.addKey, key := some k }) ∧
    (∀ e, b.state.GetKey id = Except.error e →
      RemoveKey b id = (b, some ("failed reading key " ++ bytesStr id ++ ": " ++ e)) ∧
      SetKeyVote b id v = (b, some ("failed reading key " ++ bytesStr id ++ ": " ++ e)) ∧
      SetKeyMeta b id m = (b, some ("failed reading key " ++ bytesStr id ++ ": " ++ e))) ∧
    (∀ k0, b.state.GetKey id = Except.ok k0 →
      RemoveKey b id = mkUpdate b { messageKind := AUMKind.removeKey, keyID := id } ∧
      SetKeyVote b id v =
        mkUpdate b { messageKind := AUMKind.updateKey, votes := some v, keyID := id } ∧
      SetKeyMeta b id m =
        mkUpdate b { messageKind := AUMKind.updateKey, meta := some m, keyID := id }) := by
  refine ⟨?_, ?_, ?_, ?_⟩
  · intro k0 hg
    unfold AddKey
    rw [hg]
  · intro e hg
    unfold AddKey
    rw [hg]
  · intro e hg
    refine ⟨?_, ?_, ?_⟩
    · unfold RemoveKey
      rw [hg]
    · unfold SetKeyVote
      rw [hg]
    · unfold SetKeyMeta
      rw [hg]
  · intro k0 hg
    refine ⟨?_, ?_, ?_⟩
    · unfold RemoveKey
      rw [hg]
    · unfold SetKeyVote
      rw [hg]
    · unfold SetKeyMeta
      rw [hg]

/-- Witness for C5: the key kA is present in the concrete builder b0, so
AddKey fails with the already-exists error and produces no AUM. -/
theorem c5_witness :
    b0.state.GetKey kA.ID = Except.ok kA ∧
      AddKey b0 kA = (b0, some ("cannot add key " ++ bytesStr kA.ID ++ ": already exists")) :=
  ⟨rfl, (c5_edit_operations_precheck b0 kA [1] 0 []).1 kA rfl⟩

/-- C6: mkUpdate performs its steps in the order given by the spec: set the
prevHash, sign when a Signer is configured (embedding the returned
signatures before any validation), then statically validate, then apply to
the speculative state, then commit; when no Signer is configured the
signing step is skipped and the AUM proceeds unsigned. -/
theorem c6_mkUpdate_follows_spec_order (b : UpdateBuilder) (u : AUM) :
    mkUpdate b u = mkUpdateSpec b u := by
  cases hs : b.signer with
  | none => simp only [mkUpdate, mkUpdateSpec, hs]
  | some s =>
      simp only [mkUpdate, mkUpdateSpec, hs]
      cases hr : s (AUM.SigHash { u with prevAUMHash := some b.parent }) with
      | error e => simp only [hr]
      | ok sigs => simp only [hr]

/-- C8: no edit operation ever modifies the Authority referenced by the
builder: after any sequence of edit calls, and after any direct mkUpdate
call, the Authority (its head and committed state) is exactly as before. -/
theorem c8_edits_never_touch_authority (b : UpdateBuilder) (ops : List Op) :
    (applyOps b ops).a = b.a ∧ ∀ u : AUM, (mkUpdate b u).1.a = b.a :=
  ⟨applyOps_a b ops, fun u => mkUpdate_a b u⟩

/-- C9 counterexample: in the concrete builder bSig the key kA is present in
the speculative state, yet SetKeyVote fails, because the configured signer
fails; so SetKeyVote on a present id does not always succeed as claimed. -/
theorem c9_counterexample :
    bSig.state.GetKey [1] = Except.ok kA ∧ (SetKeyVote bSig [1] 7).2 ≠ none :=
  ⟨rfl, by decide⟩

/-- C9 (amended): SetKeyVote on an id absent from the speculative state fails
with the not-found error; when no Signer is configured, on a present,
non-empty id it succeeds, the UpdateKey AUM it constructs carries the new
votes value and no metadata replacement, and the resulting speculative
state changes only the vote weight of that key, leaving its metadata and
every other key untouched. -/
theorem c9_setKeyVote_semantics (b : UpdateBuilder) (id : KeyID) (v : Nat) :
    (∀ e, b.state.GetKey id = Except.error e →
      SetKeyVote b id v = (b, some ("failed reading key " ++ bytesStr id ++ ": " ++ e))) ∧
    (∀ k0, b.state.GetKey id = Except.ok k0 → b.signer = none → id ≠ [] →
      ∃ u', SetKeyVote b id v =
          ({ b with state := setVotes b.state id v, parent := u'.Hash,
                    out := b.out ++ [u'] }, none) ∧
        u'.votes = some v ∧ u'.meta = none ∧
        u'.messageKind = AUMKind.updateKey ∧ u'.keyID = id) := by
  constructor
  · intro e hg
    unfold SetKeyVote
    rw [hg]
  · intro k0 hg hs hid
    unfold SetKeyVote
    rw [hg]
    refine ⟨{ messageKind := AUMKind.updateKey, prevAUMHash := some b.parent,
              votes := some v, keyID := id }, ?_, rfl, rfl, rfl, rfl⟩
    simp only [mkUpdate, hs]
    have hval : AUM.StaticValidate { messageKind := AUMKind.updateKey,
                                     prevAUMHash := some b.parent, votes := some v,
                                     keyID := id } = none := by
      simp [AUM.StaticValidate, hid]
    rw [hval]
    have happ : b.state.applyVerifiedAUM { messageKind := AUMKind.updateKey,
                                           prevAUMHash := some b.parent,
                                           votes := some v, keyID := id } =
        Except.ok (setVotes b.state id v) := by
      simp only [State.applyVerifiedAUM, setVotes]
      rw [hg]
      rfl
    rw [happ]

/-- Witness for the amended C9: on the concrete builder b0 the key kA is
present, no signer is configured, and SetKeyVote commits an UpdateKey AUM
that changes only the vote weight of kA. -/
theorem c9_witness :
    b0.state.GetKey [1] = Except.ok kA ∧ b0.signer = none ∧ ([1] : KeyID) ≠ [] ∧
      (∃ u', SetKeyVote b0 [1] 7 =
          ({ b0 with state := setVotes b0.state [1] 7, parent := u'.Hash,
                     out := b0.out ++ [u'] }, none) ∧
        u'.votes = some 7 ∧ u'.meta = none ∧
        u'.messageKind = AUMKind.updateKey ∧ u'.keyID = [1]) :=
  ⟨rfl, rfl, by decide, (c9_setKeyVote_semantics b0 [1] 7).2 kA rfl rfl (by decide)⟩

end Tka
